import Mathlib

/-!
Shallow embedding of the house-price prediction web application (`app/app.py`)
and proofs about its input parser (`parse_value`), its prediction formatting
(`predict`), and its blueprint layout engine (`generate_blueprint`).

Conventions of the embedding:
* Python floats are idealised as exact rationals (`ℚ`); Python ints that feed
  pixel coordinates are `ℤ`.
* Fallible Python code (raising / try-except) is `Option` / `Except`.
* External capabilities (the pickled regression model, PIL drawing) are
  parameters / abstracted away: the rendered image is represented by the list
  of placed rectangles plus the footer total, which is all the layout logic
  computes.
-/

/-! ### Python string and number primitives used by the handlers -/

/-- Model of Python `str.strip()` with no argument: remove leading and trailing
whitespace characters. -/
def pyStrip (s : String) : String :=
  String.mk (((s.data.dropWhile Char.isWhitespace).reverse.dropWhile Char.isWhitespace).reverse)

/-- Lower-case a single ASCII letter, as Python `str.lower()` does. -/
def lowerChar (c : Char) : Char :=
  if 'A' ≤ c ∧ c ≤ 'Z' then Char.ofNat (c.toNat + 32) else c

/-- Model of Python `str.lower()`. -/
def pyLower (s : String) : String :=
  String.mk (s.data.map lowerChar)

/-- Numeric value of a list of decimal digit characters. -/
def digitsToNat (ds : List Char) : ℕ :=
  ds.foldl (fun a c => a * 10 + (c.toNat - 48)) 0

/-- Read an optional leading sign; returns (is-negative, remaining input). -/
def parseSign : List Char → Bool × List Char
  | '-' :: rest => (true, rest)
  | '+' :: rest => (false, rest)
  | cs => (false, cs)

/-- Read the optional exponent part of a float literal after the mantissa
`mant`; the whole remaining input must be consumed. -/
def parseExponent (mant : ℚ) : List Char → Option ℚ
  | [] => some mant
  | c :: rest =>
    if c = 'e' ∨ c = 'E' then
      let (eneg, rest1) := parseSign rest
      let ds := rest1.takeWhile Char.isDigit
      let rest2 := rest1.dropWhile Char.isDigit
      if ds.isEmpty ∨ ¬ rest2.isEmpty then none
      else some (mant * (10 : ℚ) ^ (if eneg then -(digitsToNat ds : ℤ) else (digitsToNat ds : ℤ)))
    else none

/-- Read an unsigned float literal: digits, an optional point with optional
fractional digits (at least one digit overall), an optional exponent. -/
def parseUnsigned (cs : List Char) : Option ℚ :=
  let ip := cs.takeWhile Char.isDigit
  let rest := cs.dropWhile Char.isDigit
  match rest with
  | '.' :: rest1 =>
    let fp := rest1.takeWhile Char.isDigit
    let rest2 := rest1.dropWhile Char.isDigit
    if ip.isEmpty ∧ fp.isEmpty then none
    else parseExponent ((digitsToNat ip : ℚ) + (digitsToNat fp : ℚ) / (10 : ℚ) ^ fp.length) rest2
  | _ => if ip.isEmpty then none else parseExponent (digitsToNat ip : ℚ) rest

/-- Model of Python `float(s)` on a string: surrounding whitespace is ignored
(as `float` does), then a signed finite decimal/scientific literal is read.
The special forms `inf` and `nan` are not finite and fall outside the rational
idealisation; no behaviour verified here involves them. -/
def pyFloatOfString? (s : String) : Option ℚ :=
  let cs := (pyStrip s).data
  let (neg, cs1) := parseSign cs
  (parseUnsigned cs1).map (fun q => if neg then -q else q)

/-- Model of Python `int()` applied to a float: truncation toward zero. -/
def pyInt (q : ℚ) : ℤ :=
  if 0 ≤ q then ⌊q⌋ else -⌊-q⌋

/-- Round to the nearest integer with ties to even, the rounding Python uses
when formatting. -/
def roundHalfEven (q : ℚ) : ℤ :=
  if q - ⌊q⌋ < 1 / 2 then ⌊q⌋
  else if 1 / 2 < q - ⌊q⌋ then ⌊q⌋ + 1
  else if ⌊q⌋ % 2 = 0 then ⌊q⌋ else ⌊q⌋ + 1

/-- Model of Python fixed-point formatting with two decimals (such as the
f-string field `:.2f`) on the exact-rational idealisation of floats: round to
2 decimal places (ties to even) and print; the sign of a negative zero is not
modelled. -/
def fmt2 (q : ℚ) : String :=
  let n := roundHalfEven (q * 100)
  let sgn := if n < 0 then "-" else ""
  let m := n.natAbs
  sgn ++ toString (m / 100) ++ "." ++ (if m % 100 < 10 then "0" else "") ++ toString (m % 100)

/-! ### The input parser (`parse_value` in `app/app.py`) -/

/-- The three `ValueError` shapes `parse_value` raises. -/
inductive ParseErr where
  | missingInput (name : String)
  | invalidNumeric (name raw : String)
  | unrecognizedCategory (raw : String)
deriving DecidableEq

/-- The exception messages of `parse_value`, as the outer handler displays them. -/
def errString : ParseErr → String
  | .missingInput name => "Missing input for: " ++ name
  | .invalidNumeric name raw => "Invalid numeric input for " ++ name ++ ": " ++ raw
  | .unrecognizedCategory raw => "Unrecognized furnishingstatus: " ++ raw

/-- The fixed categorical mapping of `parse_value` for `furnishingstatus`. -/
def furnishingMapping : List (String × ℚ) :=
  [("unfurnished", 0), ("semi-furnished", 1), ("furnished", 2)]

/-- Shallow embedding of `parse_value` (app/app.py): convert an incoming form
value into a float matching the training encoding, or fail. -/
def parse_value (name : String) (raw_value : Option String) : Except ParseErr ℚ :=
  match raw_value with
  | none => .error (.missingInput name)
  | some rv =>
    let raw := pyStrip rv
    if raw = "" then .error (.missingInput name)
    else if name = "furnishingstatus" then
      match pyFloatOfString? raw with
      | some q => .ok q
      | none =>
        match furnishingMapping.lookup (pyLower raw) with
        | some v => .ok v
        | none => .error (.unrecognizedCategory raw)
    else
      match pyFloatOfString? raw with
      | some q => .ok q
      | none => .error (.invalidNumeric name raw)

/-- The fixed feature order (must match the training encoding). -/
def FEATURES : List String :=
  ["area", "bedrooms", "bathrooms", "stories", "mainroad", "guestroom", "basement",
   "hotwaterheating", "airconditioning", "parking", "prefarea", "furnishingstatus"]

/-- The `for feat in FEATURES` loop of `predict`: parse each field in order,
appending to `values`, failing fast on the first error. -/
def collectFrom (form : String → Option String) : List String → Except ParseErr (List ℚ)
  | [] => .ok []
  | feat :: rest => do
    let val ← parse_value feat (form feat)
    let values ← collectFrom form rest
    pure (val :: values)

/-- The ordered feature vector `predict` builds from the posted form. -/
def collectFeatures (form : String → Option String) : Except ParseErr (List ℚ) :=
  collectFrom form FEATURES

/-! ### The prediction invoker (`predict` in `app/app.py`) -/

/-- The opaque model's output `model.predict(X)[0]`: a Python value that either
converts to a float or makes `float(...)` raise. -/
inductive PyVal where
  | num (q : ℚ)
  | nonNumeric (repr : String)
deriving DecidableEq

/-- Model of `float(pred)`: the converted value, or `none` when it raises. -/
def pyFloat? : PyVal → Option ℚ
  | .num q => some q
  | .nonNumeric _ => none

/-- The message of the exception `float(pred)` raises on a non-numeric value. -/
def floatErrMsg : PyVal → String
  | .num _ => ""
  | .nonNumeric r => "could not convert to float: " ++ r

/-- The prediction-formatting step of `predict`, with its try/except: the try
block divides by 100000 and formats with the suffix; the except clause
re-evaluates `float(pred)` to format the raw output with no suffix, so it
raises again whenever the try block's conversion raised. -/
def predictionText (pred : PyVal) : Except String String :=
  match pyFloat? pred with
  | some q => .ok (fmt2 (q / 100000.0) ++ " L")
  | none =>
    match pyFloat? pred with
    | some q => .ok (fmt2 q)
    | none => .error (floatErrMsg pred)

/-- What the `predict` route renders: the estimate page, or the input page with
an inline error message. -/
inductive PredictResponse where
  | estimate (prediction : String) (total_area : Option ℚ)
  | errorPage (message : String)
deriving DecidableEq

/-- Shallow embedding of the `predict` handler: build the feature vector, call
the opaque model, format; any exception is caught by the outer handler and
rendered on the input page. The side-channel `total_area` re-parses the raw
`area` field, substituting `none` on any failure. -/
def predict (model : List ℚ → PyVal) (form : String → Option String) : PredictResponse :=
  match collectFeatures form with
  | .error e => .errorPage ("Error: " ++ errString e)
  | .ok values =>
    match predictionText (model values) with
    | .error msg => .errorPage ("Error: " ++ msg)
    | .ok prediction_text => .estimate prediction_text ((form "area").bind pyFloatOfString?)

/-! ### The blueprint layout engine (`generate_blueprint` in `app/app.py`) -/

/-- JSON values as Python's json module produces them (an object is an
association list with distinct keys). -/
inductive Json where
  | null
  | bool (b : Bool)
  | num (q : ℚ)
  | str (s : String)
  | arr (elems : List Json)
  | obj (fields : List (String × Json))

/-- Model of Python `str()` applied to a JSON value, as in
`str(r.get("room", "Room"))`. On strings it is the identity; container reprs
are abbreviated (no verified behaviour inspects them). -/
def pyStr : Json → String
  | .null => "None"
  | .bool b => if b then "True" else "False"
  | .num q => if q.den = 1 then toString q.num else toString q.num ++ "/" ++ toString q.den
  | .str s => s
  | .arr _ => "[...]"
  | .obj _ => "\x7b...\x7d"

/-- Model of Python `float()` applied to a JSON value: numbers convert,
booleans convert to 0/1, strings are parsed, everything else raises (`none`). -/
def pyFloatOfJson? : Json → Option ℚ
  | .num q => some q
  | .bool b => some (if b then 1 else 0)
  | .str s => pyFloatOfString? s
  | _ => none

/-- A sanitized room entry: `{"room": name, "area": area}`. -/
structure RoomS where
  room : String
  area : ℚ
deriving DecidableEq

/-- One iteration of the sanitize loop of `generate_blueprint`: coerce the
name with `str(r.get("room", "Room"))` and the area with
`float(r.get("area", 0))` (0 on failure), keep the entry when its area is
positive and add it to the running total. A non-dict entry makes `r.get`
raise AttributeError, which escapes to the 500 handler. -/
def sanitizeStep : List RoomS × ℚ → Json → Except String (List RoomS × ℚ)
  | (sanitized, total_area), .obj fields =>
    let name := pyStr ((fields.lookup "room").getD (.str "Room"))
    let area := (pyFloatOfJson? ((fields.lookup "area").getD (.num 0))).getD 0
    if 0 < area then .ok (sanitized ++ [⟨name, area⟩], total_area + area)
    else .ok (sanitized, total_area)
  | _, _ => .error "object has no attribute get"

/-- The whole sanitize loop: the kept entries in order and their total area. -/
def sanitizeRooms (rooms : List Json) : Except String (List RoomS × ℚ) :=
  rooms.foldlM sanitizeStep ([], 0)

/-- Model of `sorted(sanitized, key=lambda r: -r["area"])`. Python's sort is
stable, and ascending in the key `-area` is descending in `area`; insertion
sort with the same non-strict order is stable too, hence extensionally the
same function. -/
def sortRooms (rooms : List RoomS) : List RoomS :=
  rooms.insertionSort (fun a b => b.area ≤ a.area)

/-- Canvas width in pixels. -/
def img_w : ℤ := 1500

/-- Canvas height in pixels. -/
def img_h : ℤ := 1000

/-- Padding in pixels. -/
def padding : ℤ := 16

/-- Base row height in pixels (an int in the source, used in float context). -/
def base_row_height : ℚ := 200

/-- Usable pixel area `(img_w - padding * 2) * (img_h - padding * 2)`. -/
def available_area_pixels : ℚ := (1500 - 16 * 2) * (1000 - 16 * 2)

/-- The loose pixels-per-sqft scale factor of `generate_blueprint`. -/
def px_per_sqft (total_area : ℚ) : ℚ :=
  available_area_pixels * 0.0005 / max 1.0 total_area

/-- Rectangle width `max(60, int(area * px_per_sqft * 1.8))`. -/
def roomW (area px : ℚ) : ℤ :=
  max 60 (pyInt (area * px * 1.8))

/-- Rectangle height `max(60, int(base_row_height * (1.0 + (area / total_area) * 1.4)))`. -/
def roomH (area total_area : ℚ) : ℤ :=
  max 60 (pyInt (base_row_height * (1.0 + area / total_area * 1.4)))

/-- A placed, labelled rectangle of the rendered image. -/
structure Placement where
  room : String
  area : ℚ
  x : ℤ
  y : ℤ
  w : ℤ
  h : ℤ
deriving DecidableEq

/-- The greedy row-packing loop of `generate_blueprint`, iterating the sorted
rooms with cursor (x, y) and the current row's `max_row_height`: wrap to the
next row when the rectangle would pass the right edge; stop placing (drop this
room and all later ones) when it would pass the bottom edge. -/
def placeRooms (total_area px : ℚ) : List RoomS → ℤ → ℤ → ℤ → List Placement
  | [], _, _, _ => []
  | r :: rest, x, y, max_row_height =>
    let w := roomW r.area px
    let h := roomH r.area total_area
    let x1 := if x + w + padding > img_w then padding else x
    let y1 := if x + w + padding > img_w then y + max_row_height + padding else y
    let m1 := if x + w + padding > img_w then 0 else max_row_height
    if y1 + h + padding > img_h then []
    else ⟨r.room, r.area, x1, y1, w, h⟩ :: placeRooms total_area px rest (x1 + w + padding) y1 (max m1 h)

/-- What the `generate_blueprint` route answers: the PNG attachment (as the
placed rectangles and the footer total), a 400 JSON error, or a 500 JSON
error. -/
inductive BlueprintResponse where
  | png (placements : List Placement) (total_area : ℚ)
  | clientError (msg : String)
  | serverError (msg : String)
deriving DecidableEq

/-- Shallow embedding of the `generate_blueprint` handler. The guard
`not rooms or not isinstance(rooms, list)` answers 400: for a list, Python
falsiness is emptiness, and every non-list value fails the isinstance test. -/
def generate_blueprint (rooms : Json) : BlueprintResponse :=
  match rooms with
  | .arr entries =>
    if entries.isEmpty then .clientError "No rooms provided or invalid format"
    else
      match sanitizeRooms entries with
      | .error msg => .serverError msg
      | .ok (sanitized, total_area) =>
        if total_area ≤ 0 then .clientError "Total area must be > 0"
        else
          .png (placeRooms total_area (px_per_sqft total_area) (sortRooms sanitized)
                  padding padding 0)
               total_area
  | _ => .clientError "No rooms provided or invalid format"

/-- The placed rectangles of a successful response (and `[]` otherwise). -/
def blueprintPlacements : BlueprintResponse → List Placement
  | .png placements _ => placements
  | _ => []

/-- The footer total of a successful response. -/
def blueprintTotal? : BlueprintResponse → Option ℚ
  | .png _ total_area => some total_area
  | _ => none

/-- Whether an `Except` computation succeeded. -/
def exceptOk {ε α : Type} : Except ε α → Bool
  | .ok _ => true
  | .error _ => false

/-- Whether a JSON value is an object (a Python dict). -/
def isObj : Json → Bool
  | .obj _ => true
  | _ => false

/-- Whether every entry of a room list is a dict (vacuously true off lists),
the well-formedness under which the sanitize loop cannot raise. -/
def roomsEntriesDicts : Json → Bool
  | .arr entries => entries.all isObj
  | _ => true

/-- The coercion the sanitize step applies to one dict entry, stated as a
plain function for comparison with the accumulator loop: name via
`str(r.get("room", "Room"))`, area via `float(r.get("area", 0))` with 0 on
failure. -/
def entryRoom (fields : List (String × Json)) : RoomS :=
  ⟨pyStr ((fields.lookup "room").getD (.str "Room")),
   (pyFloatOfJson? ((fields.lookup "area").getD (.num 0))).getD 0⟩

/-- Sanitization as the claims describe it: coerce each entry, keep exactly
the entries with positive area. -/
def specSanitized (entries : List (List (String × Json))) : List RoomS :=
  (entries.map entryRoom).filter (fun r => decide (0 < r.area))

/-- The worked example of the spec: Hall 500 sq.ft and Kitchen 100 sq.ft. -/
def hallKitchenRooms : Json :=
  Json.arr [Json.obj [("room", Json.str "Hall"), ("area", Json.num 500)],
            Json.obj [("room", Json.str "Kitchen"), ("area", Json.num 100)]]

/-- A one-room request used to instantiate placement facts. -/
def singleRoomJson : Json :=
  Json.arr [Json.obj [("room", Json.str "A"), ("area", Json.num 10)]]

/-- Twenty unit-area rooms: enough that the row wraps. -/
def twentyRoomsJson : Json :=
  Json.arr (List.replicate 20 (Json.obj [("room", Json.str "R"), ("area", Json.num 1)]))

lemma pyInt_eq_floor {q : ℚ} (h0 : 0 ≤ q) : pyInt q = ⌊q⌋ := by
  simp [pyInt, h0]

lemma pyInt_le {q : ℚ} {z : ℤ} (h0 : 0 ≤ q) (h : q < (z : ℚ) + 1) : pyInt q ≤ z := by
  rw [pyInt_eq_floor h0]
  have hf : ⌊q⌋ < z + 1 := Int.floor_lt.mpr (by push_cast; linarith)
  omega

lemma roomW_ge : ∀ (a px : ℚ), 60 ≤ roomW a px := by
  intro a px
  exact le_max_left _ _

lemma roomH_ge : ∀ (a t : ℚ), 60 ≤ roomH a t := by
  intro a t
  exact le_max_left _ _

lemma roomW_le_of_le_total {a t : ℚ} (ha : 0 ≤ a) (hat : a ≤ t) :
    roomW a (px_per_sqft t) ≤ 1278 := by
  have hM : (0 : ℚ) < max 1.0 t := lt_of_lt_of_le (by norm_num) (le_max_left 1.0 t)
  have haM : a ≤ max 1.0 t := le_trans hat (le_max_right _ _)
  have h1 : a / max 1.0 t ≤ 1 := (div_le_one hM).mpr haM
  have harg : a * px_per_sqft t * 1.8 ≤ 1278.9216 := by
    have he : a * px_per_sqft t * 1.8
        = a / max 1.0 t * (available_area_pixels * 0.0005 * 1.8) := by
      rw [px_per_sqft]; ring
    rw [he]
    calc a / max 1.0 t * (available_area_pixels * 0.0005 * 1.8)
        ≤ 1 * (available_area_pixels * 0.0005 * 1.8) := by
          apply mul_le_mul_of_nonneg_right h1
          norm_num [available_area_pixels]
      _ = 1278.9216 := by norm_num [available_area_pixels]
  have hpos : 0 ≤ a * px_per_sqft t * 1.8 := by
    have : 0 ≤ px_per_sqft t := by
      rw [px_per_sqft]
      exact div_nonneg (by norm_num [available_area_pixels]) (le_of_lt hM)
    positivity
  apply max_le (by norm_num)
  exact pyInt_le hpos (by push_cast; linarith)

lemma roomH_le_of_le_total {a t : ℚ} (ha : 0 ≤ a) (ht : 0 < t) (hat : a ≤ t) :
    roomH a t ≤ 480 := by
  have h1 : a / t ≤ 1 := (div_le_one ht).mpr hat
  have h0 : 0 ≤ a / t := by positivity
  have harg : base_row_height * (1.0 + a / t * 1.4) ≤ 480 := by
    rw [base_row_height]; nlinarith
  have hpos : 0 ≤ base_row_height * (1.0 + a / t * 1.4) := by
    rw [base_row_height]; nlinarith
  apply max_le (by norm_num)
  exact pyInt_le hpos (by push_cast; linarith)

lemma sanitize_fold_inv (rooms : List Json) :
    ∀ (acc : List RoomS) (tacc : ℚ) (rs : List RoomS) (t : ℚ),
      rooms.foldlM sanitizeStep (acc, tacc) = Except.ok (rs, t) →
      ((∀ r ∈ acc, 0 < r.area) → ∀ r ∈ rs, 0 < r.area) ∧
      t - (rs.map RoomS.area).sum = tacc - (acc.map RoomS.area).sum := by
  induction rooms with
  | nil =>
    intro acc tacc rs t h
    simp only [List.foldlM_nil, pure, Except.pure, Except.ok.injEq, Prod.mk.injEq] at h
    obtain ⟨rfl, rfl⟩ := h
    exact ⟨fun hacc => hacc, by ring⟩
  | cons r rest ih =>
    intro acc tacc rs t h
    rw [List.foldlM_cons] at h
    cases r with
    | obj fields =>
      simp only [sanitizeStep] at h
      by_cases hpos : 0 < (pyFloatOfJson? ((fields.lookup "area").getD (.num 0))).getD 0
      · rw [if_pos hpos] at h
        simp only [Bind.bind, Except.bind] at h
        obtain ⟨hp, hsum⟩ := ih _ _ _ _ h
        constructor
        · intro hacc r hr
          refine hp ?_ r hr
          intro r' hr'
          rcases List.mem_append.mp hr' with hin | hin
          · exact hacc r' hin
          · simp only [List.mem_singleton] at hin
            subst hin
            exact hpos
        · rw [hsum]
          simp only [List.map_append, List.sum_append, List.map_cons, List.map_nil,
            List.sum_cons, List.sum_nil]
          ring
      · rw [if_neg hpos] at h
        simp only [Bind.bind, Except.bind] at h
        exact ih _ _ _ _ h
    | null => simp [sanitizeStep, Bind.bind, Except.bind] at h
    | bool b => simp [sanitizeStep, Bind.bind, Except.bind] at h
    | num q => simp [sanitizeStep, Bind.bind, Except.bind] at h
    | str s => simp [sanitizeStep, Bind.bind, Except.bind] at h
    | arr elems => simp [sanitizeStep, Bind.bind, Except.bind] at h

lemma sanitizeRooms_ok_inv {entries : List Json} {rs : List RoomS} {t : ℚ}
    (h : sanitizeRooms entries = Except.ok (rs, t)) :
    (∀ r ∈ rs, 0 < r.area) ∧ t = (rs.map RoomS.area).sum := by
  obtain ⟨hp, hsum⟩ := sanitize_fold_inv entries [] 0 rs t h
  refine ⟨hp (by simp), ?_⟩
  simp only [List.map_nil, List.sum_nil] at hsum
  linarith

lemma sanitizeRooms_ok_area_le {entries : List Json} {rs : List RoomS} {t : ℚ}
    (h : sanitizeRooms entries = Except.ok (rs, t)) :
    ∀ r ∈ rs, r.area ≤ t := by
  obtain ⟨hp, hsum⟩ := sanitizeRooms_ok_inv h
  intro r hr
  rw [hsum]
  refine List.single_le_sum ?_ _ (List.mem_map_of_mem RoomS.area hr)
  intro x hx
  obtain ⟨r', hr', rfl⟩ := List.mem_map.mp hx
  exact le_of_lt (hp r' hr')

lemma sanitize_fold_ok (rooms : List Json) (hobj : ∀ r ∈ rooms, isObj r = true) :
    ∀ acc : List RoomS × ℚ, ∃ out, rooms.foldlM sanitizeStep acc = Except.ok out := by
  induction rooms with
  | nil => intro acc; exact ⟨acc, by simp [List.foldlM_nil, pure, Except.pure]⟩
  | cons r rest ih =>
    intro acc
    obtain ⟨fields, rfl⟩ : ∃ fields, r = Json.obj fields := by
      have hr := hobj r (by simp)
      cases r <;> simp [isObj] at hr ⊢
    rw [List.foldlM_cons]
    obtain ⟨sa, ta⟩ := acc
    obtain ⟨acc1, hstep⟩ : ∃ a, sanitizeStep (sa, ta) (Json.obj fields) = Except.ok a := by
      simp only [sanitizeStep]
      split
      · exact ⟨_, rfl⟩
      · exact ⟨_, rfl⟩
    rw [hstep]
    simp only [Bind.bind, Except.bind]
    exact ih (fun r' hr' => hobj r' (by simp [hr'])) acc1

lemma sanitize_fold_map_obj (entries : List (List (String × Json))) :
    ∀ (acc : List RoomS) (tacc : ℚ),
      (entries.map Json.obj).foldlM sanitizeStep (acc, tacc) =
        Except.ok (acc ++ specSanitized entries,
                   tacc + ((specSanitized entries).map RoomS.area).sum) := by
  induction entries with
  | nil =>
    intro acc tacc
    simp [specSanitized, List.foldlM_nil, pure, Except.pure]
  | cons e rest ih =>
    intro acc tacc
    rw [List.map_cons, List.foldlM_cons]
    by_cases hpos : 0 < (pyFloatOfJson? ((e.lookup "area").getD (.num 0))).getD 0
    · have hstep : sanitizeStep (acc, tacc) (Json.obj e) =
          Except.ok (acc ++ [entryRoom e], tacc + (entryRoom e).area) := by
        simp only [sanitizeStep, entryRoom]
        rw [if_pos hpos]
      rw [hstep]
      simp only [Bind.bind, Except.bind]
      rw [ih]
      have hfil : specSanitized (e :: rest) = entryRoom e :: specSanitized rest := by
        simp only [specSanitized, List.map_cons]
        rw [List.filter_cons_of_pos]
        simpa [entryRoom] using hpos
      rw [hfil]
      simp only [List.map_cons, List.sum_cons, Except.ok.injEq, Prod.mk.injEq]
      constructor
      · simp
      · ring
    · have hstep : sanitizeStep (acc, tacc) (Json.obj e) = Except.ok (acc, tacc) := by
        simp only [sanitizeStep, entryRoom]
        rw [if_neg hpos]
      rw [hstep]
      simp only [Bind.bind, Except.bind]
      rw [ih]
      have hfil : specSanitized (e :: rest) = specSanitized rest := by
        simp only [specSanitized, List.map_cons]
        rw [List.filter_cons_of_neg]
        simpa [entryRoom] using hpos
      rw [hfil]

lemma generate_blueprint_png_inv {rooms : Json} {pl : List Placement} {t : ℚ}
    (h : generate_blueprint rooms = BlueprintResponse.png pl t) :
    ∃ entries rs, rooms = Json.arr entries ∧ sanitizeRooms entries = Except.ok (rs, t) ∧
      0 < t ∧ pl = placeRooms t (px_per_sqft t) (sortRooms rs) padding padding 0 := by
  cases rooms with
  | arr entries =>
    refine ⟨entries, ?_⟩
    simp only [generate_blueprint] at h
    split at h
    · simp at h
    · split at h
      · simp at h
      · rename_i sanitized total heq
        split at h
        · simp at h
        · rename_i hnle
          injection h with h1 h2
          subst h2
          exact ⟨sanitized, rfl, heq, lt_of_not_le hnle, h1.symm⟩
  | null => simp [generate_blueprint] at h
  | bool b => simp [generate_blueprint] at h
  | num q => simp [generate_blueprint] at h
  | str s => simp [generate_blueprint] at h
  | obj fields => simp [generate_blueprint] at h

lemma placeRooms_mem_bounds (total px : ℚ) (hpx : px = px_per_sqft total) :
    ∀ (l : List RoomS) (x y m : ℤ),
      padding ≤ x → padding ≤ y → 0 ≤ m →
      (∀ r ∈ l, 0 < r.area ∧ r.area ≤ total) →
      ∀ p ∈ placeRooms total px l x y m,
        padding ≤ p.x ∧ padding ≤ p.y ∧ p.y + p.h + padding ≤ img_h ∧
          p.x + p.w + padding ≤ img_w := by
  intro l
  induction l with
  | nil =>
    intro x y m _ _ _ _ p hp
    simp [placeRooms] at hp
  | cons r rest ih =>
    intro x y m hx hy hm hl p hp
    have hr := hl r (by simp)
    have hrest : ∀ r' ∈ rest, 0 < r'.area ∧ r'.area ≤ total :=
      fun r' hr' => hl r' (by simp [hr'])
    have hpad : (0 : ℤ) ≤ padding := by norm_num [padding]
    have hwge : 60 ≤ roomW r.area px := roomW_ge r.area px
    have hwle : roomW r.area px ≤ 1278 := by
      rw [hpx]
      exact roomW_le_of_le_total (le_of_lt hr.1) hr.2
    have hhge : 60 ≤ roomH r.area total := roomH_ge r.area total
    simp only [placeRooms] at hp
    by_cases hwrap : x + roomW r.area px + padding > img_w
    · simp only [if_pos hwrap] at hp
      by_cases hstop : y + m + padding + roomH r.area total + padding > img_h
      · rw [if_pos hstop] at hp
        simp at hp
      · rw [if_neg hstop] at hp
        rcases List.mem_cons.mp hp with rfl | hptail
        · have h1 : img_w = (1500 : ℤ) := by norm_num [img_w]
          have h2 : padding = (16 : ℤ) := by norm_num [padding]
          have h3 := not_lt.mp hstop
          refine ⟨le_refl _, by dsimp only; linarith, by dsimp only; linarith, ?_⟩
          dsimp only
          omega
        · exact ih (padding + roomW r.area px + padding) (y + m + padding)
            (max 0 (roomH r.area total)) (by linarith) (by linarith)
            (le_max_left _ _) hrest p hptail
    · simp only [if_neg hwrap] at hp
      by_cases hstop : y + roomH r.area total + padding > img_h
      · rw [if_pos hstop] at hp
        simp at hp
      · rw [if_neg hstop] at hp
        rcases List.mem_cons.mp hp with rfl | hptail
        · have h3 := not_lt.mp hstop
          have h4 := not_lt.mp hwrap
          exact ⟨hx, hy, by dsimp only; linarith, by dsimp only; linarith⟩
        · exact ih (x + roomW r.area px + padding) y (max m (roomH r.area total))
            (by linarith) hy (le_trans hm (le_max_left _ _)) hrest p hptail

lemma collectFrom_ok_iff (form : String → Option String) :
    ∀ feats : List String,
      exceptOk (collectFrom form feats) = true ↔
        ∀ f ∈ feats, exceptOk (parse_value f (form f)) = true := by
  intro feats
  induction feats with
  | nil => simp [collectFrom, exceptOk]
  | cons feat rest ih =>
    cases hp : parse_value feat (form feat) with
    | error e =>
      simp [collectFrom, Bind.bind, Except.bind, hp, exceptOk, List.forall_mem_cons]
    | ok v =>
      cases hrest : collectFrom form rest with
      | error e =>
        simp only [List.forall_mem_cons]
        rw [← ih]
        simp [collectFrom, Bind.bind, Except.bind, hp, hrest, exceptOk]
      | ok vs =>
        simp only [List.forall_mem_cons]
        rw [← ih]
        simp [collectFrom, Bind.bind, Except.bind, hp, hrest, exceptOk, pure, Except.pure]

lemma collectFrom_forall₂ (form : String → Option String) :
    ∀ (feats : List String) (vs : List ℚ),
      collectFrom form feats = Except.ok vs →
      List.Forall₂ (fun f v => parse_value f (form f) = Except.ok v) feats vs := by
  intro feats
  induction feats with
  | nil =>
    intro vs h
    simp only [collectFrom, Except.ok.injEq] at h
    subst h
    exact List.Forall₂.nil
  | cons feat rest ih =>
    intro vs h
    simp only [collectFrom] at h
    cases hp : parse_value feat (form feat) with
    | error e =>
      rw [hp] at h
      simp [Bind.bind, Except.bind] at h
    | ok v =>
      rw [hp] at h
      cases hrest : collectFrom form rest with
      | error e =>
        rw [hrest] at h
        simp [Bind.bind, Except.bind] at h
      | ok vs' =>
        rw [hrest] at h
        simp only [Bind.bind, Except.bind, pure, Except.pure, Except.ok.injEq] at h
        subst h
        exact List.Forall₂.cons hp (ih vs' hrest)

lemma forall₂_getLast? {α β : Type} {R : α → β → Prop} :
    ∀ {l : List α} {l' : List β} {a : α},
      List.Forall₂ R l l' → l.getLast? = some a → ∃ b, l'.getLast? = some b ∧ R a b := by
  intro l
  induction l with
  | nil => intro l' a h ha; simp at ha
  | cons x rest ih =>
    intro l' a h ha
    cases h with
    | cons hR htail =>
      rename_i y l''
      cases rest with
      | nil =>
        cases htail
        simp only [List.getLast?_singleton, Option.some.injEq] at ha
        subst ha
        exact ⟨y, by simp, hR⟩
      | cons x2 rest2 =>
        obtain ⟨b2, l2, rfl⟩ : ∃ b2 l2, l'' = b2 :: l2 := by
          cases htail with
          | cons h1 h2 => exact ⟨_, _, rfl⟩
        rw [List.getLast?_cons_cons] at ha
        obtain ⟨b, hb, hRb⟩ := ih htail ha
        exact ⟨b, by rw [List.getLast?_cons_cons]; exact hb, hRb⟩

lemma filter_idem {α : Type} (p : α → Bool) (l : List α) :
    (l.filter p).filter p = l.filter p := by
  induction l with
  | nil => rfl
  | cons a rest ih =>
    by_cases hp : p a
    · simp [List.filter_cons, hp, ih]
    · simp [List.filter_cons, hp, ih]

lemma generate_blueprint_arr_ok {entries : List Json} {rs : List RoomS} {t : ℚ}
    (hne : entries ≠ []) (hsan : sanitizeRooms entries = Except.ok (rs, t)) :
    generate_blueprint (Json.arr entries) =
      if t ≤ 0 then BlueprintResponse.clientError "Total area must be > 0"
      else BlueprintResponse.png
        (placeRooms t (px_per_sqft t) (sortRooms rs) padding padding 0) t := by
  simp only [generate_blueprint]
  rw [if_neg (by simpa [List.isEmpty_iff] using hne)]
  simp only [hsan]

/-- C1 (amended): for every model output that `float` converts to a number q,
the prediction text is q divided by 100000, formatted to 2 decimals, with
suffix " L". When the conversion fails, the except-clause fallback re-runs
`float(pred)` and fails again, so no fallback text is produced: the error
propagates and the handler answers the error page instead of an estimate. -/
theorem C1_prediction_format_fallback_raises (model : List ℚ → PyVal)
    (form : String → Option String) (values : List ℚ)
    (hv : collectFeatures form = Except.ok values) :
    (∀ q, pyFloat? (model values) = some q →
      predict model form =
        PredictResponse.estimate (fmt2 (q / 100000.0) ++ " L")
          ((form "area").bind pyFloatOfString?)) ∧
    (pyFloat? (model values) = none →
      predict model form =
        PredictResponse.errorPage ("Error: " ++ floatErrMsg (model values))) := by
  constructor
  · intro q hq
    simp only [predict, hv]
    simp [predictionText, hq]
  · intro hq
    simp only [predict, hv]
    simp [predictionText, hq]

/-- C1 (counterexample): with a model output that `float` cannot convert, the
divide/format step fails and the claimed fallback does not happen: the
request answers the error page, not a 2-decimal prediction text. -/
theorem C1_counterexample :
    predict (fun _ => PyVal.nonNumeric "ndarray") (fun _ => some "1") =
      PredictResponse.errorPage "Error: could not convert to float: ndarray" := by
  with_unfolding_all rfl

/-- C1 (witness): a numeric model output 4200000 on an all-"1" form is shown
as "42.00 L". -/
theorem C1_prediction_format_witness :
    collectFeatures (fun _ => some "1") =
      Except.ok [1, 1, 1, 1, 1, 1, 1, 1, 1, 1, 1, 1] ∧
    predict (fun _ => PyVal.num 4200000) (fun _ => some "1") =
      PredictResponse.estimate "42.00 L" (some 1) := by
  have h1 := (C1_prediction_format_fallback_raises (fun _ => PyVal.num 4200000)
    (fun _ => some "1") [1, 1, 1, 1, 1, 1, 1, 1, 1, 1, 1, 1]
    (by with_unfolding_all rfl)).1 4200000 rfl
  refine ⟨by with_unfolding_all rfl, ?_⟩
  rw [h1]
  with_unfolding_all rfl

/-- C2: in the placement loop, as soon as one room's tentative placement
passes the bottom edge (y + height + padding > canvas height, y taken after
any wrap), that room and every later room are omitted (no further
placements); and the omission is silent: whenever sanitization succeeds with
a positive total, the request still answers the PNG of the placements. -/
theorem C2_bottom_overflow_silently_stops (r : RoomS) (rest : List RoomS)
    (total_area px : ℚ) (x y max_row_height : ℤ)
    (hcond : (if x + roomW r.area px + padding > img_w
              then y + max_row_height + padding else y)
             + roomH r.area total_area + padding > img_h) :
    placeRooms total_area px (r :: rest) x y max_row_height = [] ∧
    ∀ (entries : List Json) (rs : List RoomS) (t : ℚ),
      sanitizeRooms entries = Except.ok (rs, t) → 0 < t →
      generate_blueprint (Json.arr entries) =
        BlueprintResponse.png
          (placeRooms t (px_per_sqft t) (sortRooms rs) padding padding 0) t := by
  constructor
  · simp only [placeRooms]
    rw [if_pos hcond]
  · intro entries rs t hsan ht
    have hne : entries ≠ [] := by
      rintro rfl
      simp only [sanitizeRooms, List.foldlM_nil, pure, Except.pure, Except.ok.injEq,
        Prod.mk.injEq] at hsan
      obtain ⟨h1, h2⟩ := hsan
      rw [← h2] at ht
      exact lt_irrefl 0 ht
    rw [generate_blueprint_arr_ok hne hsan, if_neg (not_le.mpr ht)]

/-- C2 (witness): a unit room at y = 950 overflows the bottom and is dropped;
the Hall/Kitchen request still answers a PNG. -/
theorem C2_bottom_overflow_witness :
    placeRooms 1 (px_per_sqft 1) [⟨"A", 1⟩] 16 950 0 = [] ∧
    generate_blueprint hallKitchenRooms =
      BlueprintResponse.png
        (placeRooms 600 (px_per_sqft 600) (sortRooms [⟨"Hall", 500⟩, ⟨"Kitchen", 100⟩])
          padding padding 0) 600 := by
  constructor
  · exact (C2_bottom_overflow_silently_stops ⟨"A", 1⟩ [] 1 (px_per_sqft 1) 16 950 0
      (by with_unfolding_all decide)).1
  · exact (C2_bottom_overflow_silently_stops ⟨"A", 1⟩ [] 1 (px_per_sqft 1) 16 950 0
      (by with_unfolding_all decide)).2
      [Json.obj [("room", Json.str "Hall"), ("area", Json.num 500)],
       Json.obj [("room", Json.str "Kitchen"), ("area", Json.num 100)]]
      [⟨"Hall", 500⟩, ⟨"Kitchen", 100⟩] 600 (by with_unfolding_all rfl) (by norm_num)

instance : IsTotal RoomS (fun a b => b.area ≤ a.area) :=
  ⟨fun a b => le_total b.area a.area⟩

instance : IsTrans RoomS (fun a b => b.area ≤ a.area) :=
  ⟨fun _ _ _ h1 h2 => le_trans h2 h1⟩

/-- C3: the placement order is the sanitized list sorted by area descending,
the sort is stable (for every area value, the rooms of that area keep their
original relative order), and on the Hall/Kitchen example Hall is placed
before Kitchen. -/
theorem C3_sorted_descending_stable (rs : List RoomS) :
    List.Sorted (fun a b => b.area ≤ a.area) (sortRooms rs) ∧
    List.Perm (sortRooms rs) rs ∧
    (∀ a : ℚ, (sortRooms rs).filter (fun r => decide (r.area = a)) =
      rs.filter (fun r => decide (r.area = a))) ∧
    (blueprintPlacements (generate_blueprint hallKitchenRooms)).map Placement.room =
      ["Hall", "Kitchen"] := by
  refine ⟨List.sorted_insertionSort _ rs, List.perm_insertionSort _ rs, ?_, ?_⟩
  · intro a
    have hsub : (rs.filter (fun r => decide (r.area = a))).Sublist (sortRooms rs) := by
      apply List.sublist_insertionSort
      · apply List.pairwise_of_forall_mem_list
        intro x hx y hy
        have hxa : x.area = a := by simpa using List.of_mem_filter hx
        have hya : y.area = a := by simpa using List.of_mem_filter hy
        rw [hxa, hya]
      · exact List.filter_sublist rs
    have hperm : ((sortRooms rs).filter (fun r => decide (r.area = a))).Perm
        (rs.filter (fun r => decide (r.area = a))) :=
      (List.perm_insertionSort _ rs).filter _
    have hsub2 : (rs.filter (fun r => decide (r.area = a))).Sublist
        ((sortRooms rs).filter (fun r => decide (r.area = a))) := by
      have h2 := hsub.filter (fun r => decide (r.area = a))
      rwa [filter_idem] at h2
    exact (hsub2.eq_of_length hperm.length_eq.symm).symm
  · with_unfolding_all rfl

/-- C4: with every entry a dict, the request fails with a client error
(HTTP 400 with a JSON error body) exactly when the rooms value is an empty
list, is not a list at all, or sanitization leaves a non-positive total. -/
theorem C4_client_error_iff (rooms : Json) (hd : roomsEntriesDicts rooms = true) :
    (∃ msg, generate_blueprint rooms = BlueprintResponse.clientError msg) ↔
      (rooms = Json.arr [] ∨ (∀ entries, rooms ≠ Json.arr entries) ∨
       ∃ entries rs t, rooms = Json.arr entries ∧
         sanitizeRooms entries = Except.ok (rs, t) ∧ t ≤ 0) := by
  cases rooms with
  | arr entries =>
    simp only [roomsEntriesDicts] at hd
    by_cases hne : entries = []
    · subst hne
      constructor
      · intro _
        exact Or.inl rfl
      · intro _
        exact ⟨"No rooms provided or invalid format", by with_unfolding_all rfl⟩
    · obtain ⟨⟨rs, t⟩, hsan⟩ := sanitize_fold_ok entries
        (fun r hr => List.all_eq_true.mp hd r hr) ([], 0)
      have hsan' : sanitizeRooms entries = Except.ok (rs, t) := hsan
      by_cases hle : t ≤ 0
      · constructor
        · intro _
          exact Or.inr (Or.inr ⟨entries, rs, t, rfl, hsan', hle⟩)
        · intro _
          exact ⟨"Total area must be > 0",
            by rw [generate_blueprint_arr_ok hne hsan', if_pos hle]⟩
      · constructor
        · rintro ⟨msg, hmsg⟩
          rw [generate_blueprint_arr_ok hne hsan', if_neg hle] at hmsg
          exact absurd hmsg (by simp)
        · rintro (h1 | h2 | ⟨e2, rs2, t2, heq, hsan2, hle2⟩)
          · exact absurd (by injection h1) hne
          · exact absurd rfl (h2 entries)
          · exfalso
            injection heq with he
            subst he
            rw [hsan'] at hsan2
            injection hsan2 with hpair
            have ht2 : t2 = t := congrArg Prod.snd hpair.symm
            rw [ht2] at hle2
            exact hle hle2
  | null =>
    exact ⟨fun _ => Or.inr (Or.inl fun entries h => Json.noConfusion h),
      fun _ => ⟨"No rooms provided or invalid format", rfl⟩⟩
  | bool b =>
    exact ⟨fun _ => Or.inr (Or.inl fun entries h => Json.noConfusion h),
      fun _ => ⟨"No rooms provided or invalid format", rfl⟩⟩
  | num q =>
    exact ⟨fun _ => Or.inr (Or.inl fun entries h => Json.noConfusion h),
      fun _ => ⟨"No rooms provided or invalid format", rfl⟩⟩
  | str s =>
    exact ⟨fun _ => Or.inr (Or.inl fun entries h => Json.noConfusion h),
      fun _ => ⟨"No rooms provided or invalid format", rfl⟩⟩
  | obj fields =>
    exact ⟨fun _ => Or.inr (Or.inl fun entries h => Json.noConfusion h),
      fun _ => ⟨"No rooms provided or invalid format", rfl⟩⟩

/-- C4 (witness): rooms = [] and rooms = [an entry of area -5] both answer a
client error. -/
theorem C4_client_error_witness :
    (∃ msg, generate_blueprint (Json.arr []) = BlueprintResponse.clientError msg) ∧
    (∃ msg, generate_blueprint
        (Json.arr [Json.obj [("room", Json.str "A"), ("area", Json.num (-5))]]) =
      BlueprintResponse.clientError msg) := by
  constructor
  · exact (C4_client_error_iff (Json.arr []) (by with_unfolding_all rfl)).mpr (Or.inl rfl)
  · exact (C4_client_error_iff
      (Json.arr [Json.obj [("room", Json.str "A"), ("area", Json.num (-5))]])
      (by with_unfolding_all rfl)).mpr
      (Or.inr (Or.inr ⟨[Json.obj [("room", Json.str "A"), ("area", Json.num (-5))]], [], 0,
        rfl, by with_unfolding_all rfl, le_refl 0⟩))

/-- C5: sanitization coerces each entry's name (default "Room" when absent)
and area (default 0 on parse failure), keeps exactly the entries with
positive area, totals their areas; on areas 500 and 100 the total is 600. -/
theorem C5_sanitize_filter_sum (entries : List (List (String × Json))) :
    sanitizeRooms (entries.map Json.obj) =
      Except.ok (specSanitized entries, ((specSanitized entries).map RoomS.area).sum) ∧
    blueprintTotal? (generate_blueprint hallKitchenRooms) = some 600 := by
  constructor
  · have h := sanitize_fold_map_obj entries [] 0
    simpa [sanitizeRooms] using h
  · with_unfolding_all rfl

/-- C6: furnishingstatus parsing first tries a direct numeric parse of the
trimmed value; if that fails it lower-cases the value and looks it up in the
fixed mapping, failing with UnrecognizedCategory when absent. "furnished"
parses to 2, "semi-furnished" to 1, "unfurnished" to 0, "2" to 2 directly,
and "penthouse" fails. -/
theorem C6_furnishingstatus_parse :
    parse_value "furnishingstatus" (some "furnished") = Except.ok 2 ∧
    parse_value "furnishingstatus" (some "semi-furnished") = Except.ok 1 ∧
    parse_value "furnishingstatus" (some "unfurnished") = Except.ok 0 ∧
    parse_value "furnishingstatus" (some "2") = Except.ok 2 ∧
    parse_value "furnishingstatus" (some "penthouse") =
      Except.error (ParseErr.unrecognizedCategory "penthouse") ∧
    ∀ s : String, pyStrip s ≠ "" → pyFloatOfString? (pyStrip s) = none →
      parse_value "furnishingstatus" (some s) =
        (match furnishingMapping.lookup (pyLower (pyStrip s)) with
         | some v => Except.ok v
         | none => Except.error (ParseErr.unrecognizedCategory (pyStrip s))) := by
  refine ⟨by with_unfolding_all rfl, by with_unfolding_all rfl, by with_unfolding_all rfl,
    by with_unfolding_all rfl, by with_unfolding_all rfl, ?_⟩
  intro s hne hnum
  simp only [parse_value]
  rw [if_neg hne, if_pos trivial, hnum]

/-- C7: parse_value fails with MissingInput exactly when the raw value is
absent or empty after trimming whitespace, for every field name; and the
feature-vector collection succeeds exactly when every one of the 12 FEATURES
fields parses, so a single failing field aborts and no vector is produced. -/
theorem C7_missing_input_iff :
    (∀ (name : String) (raw : Option String),
       parse_value name raw = Except.error (ParseErr.missingInput name) ↔
         (raw = none ∨ ∃ s, raw = some s ∧ pyStrip s = "")) ∧
    (∀ form : String → Option String,
       exceptOk (collectFeatures form) = true ↔
         ∀ feat ∈ FEATURES, exceptOk (parse_value feat (form feat)) = true) := by
  constructor
  · intro name raw
    cases raw with
    | none => simp [parse_value]
    | some s =>
      by_cases hs : pyStrip s = ""
      · simp only [parse_value]
        rw [if_pos hs]
        simp [hs]
      · simp only [parse_value]
        rw [if_neg hs]
        constructor
        · intro h
          exfalso
          by_cases hf : name = "furnishingstatus"
          · rw [if_pos hf] at h
            cases hnum : pyFloatOfString? (pyStrip s) with
            | some q =>
              rw [hnum] at h
              simp at h
            | none =>
              rw [hnum] at h
              cases hlook : furnishingMapping.lookup (pyLower (pyStrip s)) with
              | some v =>
                rw [hlook] at h
                simp at h
              | none =>
                rw [hlook] at h
                simp at h
          · rw [if_neg hf] at h
            cases hnum : pyFloatOfString? (pyStrip s) with
            | some q =>
              rw [hnum] at h
              simp at h
            | none =>
              rw [hnum] at h
              simp at h
        · rintro (h | ⟨s2, hs2, hempty⟩)
          · exact absurd h (by simp)
          · injection hs2 with he
            rw [← he] at hempty
            exact absurd hempty hs
  · intro form
    exact collectFrom_ok_iff form FEATURES

/-- C8: whenever the blueprint request answers a PNG (validation passed), at
least one rectangle was placed: the first (largest) room always fits, since
its height is at most 480 and its y after at most one initial wrap is at most
2 * padding. -/
theorem C8_first_room_always_placed (rooms : Json) (pl : List Placement) (t : ℚ)
    (h : generate_blueprint rooms = BlueprintResponse.png pl t) : pl ≠ [] := by
  obtain ⟨entries, rs, rfl, hsan, ht, hpl⟩ := generate_blueprint_png_inv h
  obtain ⟨hpos, hsum⟩ := sanitizeRooms_ok_inv hsan
  have hle := sanitizeRooms_ok_area_le hsan
  cases hsrt : sortRooms rs with
  | nil =>
    exfalso
    have hlen : rs.length = 0 := by
      have hcg := congrArg List.length hsrt
      rwa [sortRooms, List.length_insertionSort, List.length_nil] at hcg
    have hnil : rs = [] := List.length_eq_zero.mp hlen
    subst hnil
    simp only [List.map_nil, List.sum_nil] at hsum
    rw [hsum] at ht
    exact lt_irrefl 0 ht
  | cons r0 rest =>
    have hr0 : r0 ∈ rs := by
      have hmem : r0 ∈ sortRooms rs := by
        rw [hsrt]
        exact List.mem_cons_self r0 rest
      rwa [sortRooms, List.mem_insertionSort] at hmem
    have hH : roomH r0.area t ≤ 480 :=
      roomH_le_of_le_total (le_of_lt (hpos r0 hr0)) ht (hle r0 hr0)
    have hpad : padding = (16 : ℤ) := by norm_num [padding]
    have himgh : img_h = (1000 : ℤ) := by norm_num [img_h]
    have hnot : ¬ ((if padding + roomW r0.area (px_per_sqft t) + padding > img_w
        then padding + 0 + padding else padding) + roomH r0.area t + padding > img_h) := by
      rw [not_lt]
      split
      · linarith
      · linarith
    rw [hpl, hsrt]
    simp only [placeRooms]
    rw [if_neg hnot]
    simp

/-- C8 (witness): the one-room request places its rectangle. -/
theorem C8_first_room_witness :
    ([Placement.mk "A" 10 16 16 1278 480] : List Placement) ≠ [] :=
  C8_first_room_always_placed singleRoomJson [Placement.mk "A" 10 16 16 1278 480] 10
    (by with_unfolding_all rfl)

/-- C9 (counterexample): twenty unit rooms force a row wrap (some rectangle
has y > padding), yet every placed rectangle still satisfies the horizontal
bound x + w + padding ≤ img_w — the wrapped room does not extend past the
canvas, contrary to the claim that the bound is not guaranteed. -/
theorem C9_horizontal_bound_counterexample :
    ((blueprintPlacements (generate_blueprint twentyRoomsJson)).all
        (fun p => decide (p.x + p.w + padding ≤ img_w))) = true ∧
    ((blueprintPlacements (generate_blueprint twentyRoomsJson)).any
        (fun p => decide (padding < p.y))) = true := by
  constructor
  · with_unfolding_all rfl
  · with_unfolding_all rfl

/-- C9 (amended): every placed rectangle satisfies x ≥ padding, y ≥ padding,
y + h + padding ≤ img_h, and also the horizontal bound
x + w + padding ≤ img_w: computed widths never exceed 1278 pixels, which fits
the usable width even at the reset cursor right after a wrap. -/
theorem C9_placed_rectangles_in_canvas (rooms : Json) (pl : List Placement) (t : ℚ)
    (h : generate_blueprint rooms = BlueprintResponse.png pl t) :
    ∀ p ∈ pl, padding ≤ p.x ∧ padding ≤ p.y ∧ p.y + p.h + padding ≤ img_h ∧
      p.x + p.w + padding ≤ img_w := by
  obtain ⟨entries, rs, rfl, hsan, ht, hpl⟩ := generate_blueprint_png_inv h
  obtain ⟨hpos, hsum⟩ := sanitizeRooms_ok_inv hsan
  have hle := sanitizeRooms_ok_area_le hsan
  rw [hpl]
  apply placeRooms_mem_bounds t (px_per_sqft t) rfl (sortRooms rs) padding padding 0
    (le_refl _) (le_refl _) (le_refl _)
  intro r hr
  rw [sortRooms, List.mem_insertionSort] at hr
  exact ⟨hpos r hr, hle r hr⟩

/-- C9 (witness): the rectangle of the one-room request lies inside the
canvas on all four sides. -/
theorem C9_placed_rectangles_witness :
    padding ≤ (Placement.mk "A" 10 16 16 1278 480).x ∧
      padding ≤ (Placement.mk "A" 10 16 16 1278 480).y ∧
      (Placement.mk "A" 10 16 16 1278 480).y + (Placement.mk "A" 10 16 16 1278 480).h +
        padding ≤ img_h ∧
      (Placement.mk "A" 10 16 16 1278 480).x + (Placement.mk "A" 10 16 16 1278 480).w +
        padding ≤ img_w :=
  C9_placed_rectangles_in_canvas singleRoomJson [Placement.mk "A" 10 16 16 1278 480] 10
    (by with_unfolding_all rfl) (Placement.mk "A" 10 16 16 1278 480)
    (List.mem_singleton.mpr rfl)

/-- C10: any string whose trimmed form parses as a number is accepted
verbatim for furnishingstatus, with no range check against the documented
encoding 0..2; and the parsed value reaches the model unchanged as the last
entry of the feature vector. -/
theorem C10_furnishingstatus_no_range_check (s : String) (q : ℚ)
    (h : pyFloatOfString? (pyStrip s) = some q) :
    parse_value "furnishingstatus" (some s) = Except.ok q ∧
    ∀ (form : String → Option String) (vs : List ℚ),
      form "furnishingstatus" = some s → collectFeatures form = Except.ok vs →
      vs.getLast? = some q := by
  have hne : pyStrip s ≠ "" := by
    intro h0
    rw [h0] at h
    rw [show pyFloatOfString? "" = none from rfl] at h
    exact Option.noConfusion h
  have hpv : parse_value "furnishingstatus" (some s) = Except.ok q := by
    simp only [parse_value]
    rw [if_neg hne, if_pos trivial, h]
  refine ⟨hpv, ?_⟩
  intro form vs hform hcoll
  have hf := collectFrom_forall₂ form FEATURES vs hcoll
  have hlast : FEATURES.getLast? = some "furnishingstatus" := by rfl
  obtain ⟨b, hb, hRb⟩ := forall₂_getLast? hf hlast
  rw [hform, hpv] at hRb
  injection hRb with hqb
  rw [hb, ← hqb]

/-- C10 (witness): "7" and "-1" are both outside the documented encoding yet
parse verbatim, and a form answering "7" everywhere yields 7 as the last
feature-vector entry. -/
theorem C10_no_range_check_witness :
    parse_value "furnishingstatus" (some "7") = Except.ok 7 ∧
    parse_value "furnishingstatus" (some "-1") = Except.ok (-1) ∧
    [(7 : ℚ), 7, 7, 7, 7, 7, 7, 7, 7, 7, 7, 7].getLast? = some 7 := by
  refine ⟨?_, ?_, ?_⟩
  · exact (C10_furnishingstatus_no_range_check "7" 7 (by with_unfolding_all rfl)).1
  · exact (C10_furnishingstatus_no_range_check "-1" (-1) (by with_unfolding_all rfl)).1
  · exact (C10_furnishingstatus_no_range_check "7" 7 (by with_unfolding_all rfl)).2
      (fun _ => some "7") [7, 7, 7, 7, 7, 7, 7, 7, 7, 7, 7, 7] rfl
      (by with_unfolding_all rfl)
